import Mathlib

/-!
Shallow embedding of the task-tracking web application in `src/app/app.py`
(Flask route handlers over a single SQLAlchemy `Task` table), together with
theorems settling the specification claims.

Modelling conventions:
* Timestamps are `Nat` (an abstract monotone clock); the current time is an
  explicit `now` parameter to each handler that reads `datetime.utcnow()`.
* `datetime.fromisoformat` is an external library function; it is modelled as
  an explicit parameter `parse : String → Option Nat` (`none` = the call
  raises `ValueError`), so theorems quantify over every parser behaviour.
* `db.session.commit()` may raise; its outcome is an explicit parameter
  `commitErr : Option String` (`some e` = commit raises an exception whose
  string rendering is `e`). A raised exception inside a handler's `try` block
  is caught, `db.session.rollback()` discards the pending change, and the
  database table is left as it was — hence error branches return the store
  unchanged.
* A JSON object field is `Option (Option α)`: the outer layer is presence of
  the key in the payload, the inner layer is JSON `null` versus a value.
* The table is a `List Task` in insertion order plus the next primary key.
-/

namespace TaskApp

/-- A row of the `tasks` table. Fields mirror the columns named by the spec
(§3) and used by `app.py`; string-typed columns are `Option String` because a
PUT payload may set them to JSON `null`. -/
structure Task where
  id : Nat
  title : Option String
  description : Option String
  status : Option String
  priority : Option String
  due_date : Option Nat
  created_at : Nat
  updated_at : Nat
deriving Repr, DecidableEq

/-- The database: the `tasks` table in insertion order, and the next
auto-assigned primary key. -/
structure Store where
  tasks : List Task
  nextId : Nat
deriving Repr, DecidableEq

/-- `Task.query.get(task_id)`: look up a row by primary key. -/
def Store.getTask (st : Store) (taskId : Nat) : Option Task :=
  st.tasks.find? (fun t => t.id == taskId)

/-- Bodies of the responses produced by the handlers we embed. -/
inductive Body where
  | errorJson (msg : String)
  | taskJson (t : Task)
  | taskListJson (ts : List Task)
  | deletedJson
  | redirectIndex
  | newTaskForm (error : Option String)
deriving Repr, DecidableEq

/-- An HTTP response: status code and body. -/
structure Response where
  code : Nat
  body : Body
deriving Repr, DecidableEq

/-- A JSON field value: `none` = key absent, `some none` = key present with
`null`, `some (some v)` = key present with value `v`. -/
abbrev JField (α : Type) := Option (Option α)

/-- Python `data.get(k)` followed by a truthiness test, returning the string
only when the key is present, non-`null` and non-empty (Python's `if x:` is
false for `None` and `""`). -/
def JField.getTruthy (f : JField String) : Option String :=
  match f with
  | some (some s) => if s = "" then none else some s
  | _ => none

/-- Python `data.get(k, d)`: the default is used only when the key is absent;
a key present with `null` yields `None`. -/
def JField.getOr (f : JField String) (d : String) : Option String :=
  match f with
  | none => some d
  | some v => v

/-- Payload of `POST /api/tasks`. The handler reads `title`, `description`,
`priority` and `due_date`; a `status` key may be supplied but is never read
by the handler. -/
structure CreatePayload where
  title : JField String
  description : JField String
  status : JField String
  priority : JField String
  due_date : JField String
deriving Repr, DecidableEq

/-- Payload of `PUT /api/tasks/{id}`: each key may be absent, `null`, or a
value. -/
structure UpdatePayload where
  title : JField String
  description : JField String
  status : JField String
  priority : JField String
  due_date : JField String
deriving Repr, DecidableEq

/-- Form data of `POST /task/new`: form fields are strings; `none` means the
field is missing from the submission (`request.form['title']` then raises). -/
structure FormData where
  title : Option String
  description : Option String
  priority : Option String
deriving Repr, DecidableEq

/-- Modelled from the spec: the `Task` model constructor, defined in
`models.py` which is not under `src/`. Per §3/§4.1 of the spec: `status`
defaults to `todo`, `created_at` and `updated_at` are set to the current
time, and creation fails with a validation error if `title` is empty
(`create ... Fails with a validation error if title is empty or missing`). -/
def mkTask (nextId : Nat) (title : Option String) (description : Option String)
    (priority : Option String) (due_date : Option Nat) (now : Nat) :
    Except String Task :=
  match title with
  | none => .error "Title is required"
  | some s =>
    if s = "" then .error "Title is required"
    else .ok { id := nextId, title := some s, description := description,
               status := some "todo", priority := priority,
               due_date := due_date, created_at := now, updated_at := now }

/-- Append a freshly created row to the table and bump the key counter. -/
def Store.insertTask (st : Store) (t : Task) : Store :=
  { tasks := st.tasks ++ [t], nextId := st.nextId + 1 }

/-- `GET /api/tasks` (`get_tasks` in `app.py`): read the `status` and
`priority` query parameters (absent → `None`), apply `filter_by` for each
truthy one, then `order_by(created_at.desc()).all()`. The descending order is
modelled by a stable merge sort on `created_at`. -/
def get_tasks (st : Store) (status priority : Option String) : List Task :=
  let q := st.tasks
  let q := match status with
    | some s => if s = "" then q else q.filter (fun t => t.status == some s)
    | none => q
  let q := match priority with
    | some p => if p = "" then q else q.filter (fun t => t.priority == some p)
    | none => q
  q.mergeSort (fun a b => b.created_at ≤ a.created_at)

/-- The tail of `create_task`'s `try` block: build the `Task` through the
model constructor (a validation error is caught, rolled back, 400), then
`db.session.add` and `db.session.commit` (a commit exception likewise);
on success answer 201 with the new row. -/
def createCommit (st : Store) (title : String) (de pr : Option String)
    (due : Option Nat) (now : Nat) (commitErr : Option String) :
    Response × Store :=
  match mkTask st.nextId (some title) de pr due now with
  | .error e => (⟨400, .errorJson e⟩, st)
  | .ok t =>
    match commitErr with
    | some e => (⟨400, .errorJson e⟩, st)
    | none => (⟨201, .taskJson t⟩, st.insertTask t)

/-- `POST /api/tasks` (`create_task` in `app.py`): reject a missing, `null`
or empty `title` with 400 before touching the store; otherwise parse
`due_date` when truthy (a parse error is caught, rolled back, 400), build
the `Task`, commit, and answer 201. -/
def create_task (st : Store) (p : CreatePayload) (now : Nat)
    (parse : String → Option Nat) (commitErr : Option String) :
    Response × Store :=
  match p.title.getTruthy with
  | none => (⟨400, .errorJson "Title is required"⟩, st)
  | some title =>
    match p.due_date.getTruthy with
    | some s =>
      match parse s with
      | none => (⟨400, .errorJson "Invalid isoformat string"⟩, st)
      | some d =>
        createCommit st title (p.description.getOr "")
          (p.priority.getOr "medium") (some d) now commitErr
    | none =>
      createCommit st title (p.description.getOr "")
        (p.priority.getOr "medium") none now commitErr

/-- `GET /api/tasks/{id}` (`get_task` in `app.py`). -/
def get_task (st : Store) (taskId : Nat) : Response :=
  match st.getTask taskId with
  | none => ⟨404, .errorJson "Task not found"⟩
  | some t => ⟨200, .taskJson t⟩

/-- The four `if k in data: task.k = data[k]` assignments of `update_task`:
a key present with `null` is assigned as `None`, an absent key leaves the
stored value. -/
def applyStringFields (t : Task) (p : UpdatePayload) : Task :=
  let t := match p.title with | none => t | some v => { t with title := v }
  let t := match p.description with
    | none => t | some v => { t with description := v }
  let t := match p.status with | none => t | some v => { t with status := v }
  let t := match p.priority with
    | none => t | some v => { t with priority := v }
  t

/-- The `due_date` assignment of `update_task`
(`fromisoformat(v) if v else None`, only when the key is present) followed
by the unconditional `updated_at` refresh. A parse failure raises. -/
def applyDue (t : Task) (dd : JField String) (parse : String → Option Nat)
    (now : Nat) : Except String Task :=
  match dd with
  | none => .ok { t with updated_at := now }
  | some none => .ok { t with due_date := none, updated_at := now }
  | some (some s) =>
    if s = "" then .ok { t with due_date := none, updated_at := now }
    else match parse s with
      | none => .error "Invalid isoformat string"
      | some d => .ok { t with due_date := some d, updated_at := now }

/-- The body of `update_task`'s `try` block: apply exactly the keys present
in the payload, then refresh `updated_at`. -/
def applyUpdate (t : Task) (p : UpdatePayload) (parse : String → Option Nat)
    (now : Nat) : Except String Task :=
  applyDue (applyStringFields t p) p.due_date parse now

/-- Replace the row with the given primary key by the updated row. -/
def Store.replaceTask (st : Store) (taskId : Nat) (t' : Task) : Store :=
  { st with tasks := st.tasks.map (fun u => if u.id == taskId then t' else u) }

/-- `PUT /api/tasks/{id}` (`update_task` in `app.py`): 404 on unknown id;
otherwise apply the supplied fields inside `try`, commit, 200 with the
updated row; any exception rolls back and answers 400 with its message. -/
def update_task (st : Store) (taskId : Nat) (p : UpdatePayload) (now : Nat)
    (parse : String → Option Nat) (commitErr : Option String) :
    Response × Store :=
  match st.getTask taskId with
  | none => (⟨404, .errorJson "Task not found"⟩, st)
  | some t =>
    match applyUpdate t p parse now with
    | .error e => (⟨400, .errorJson e⟩, st)
    | .ok t' =>
      match commitErr with
      | some e => (⟨400, .errorJson e⟩, st)
      | none => (⟨200, .taskJson t'⟩, st.replaceTask taskId t')

/-- `DELETE /api/tasks/{id}` (`delete_task` in `app.py`): 404 on unknown id;
otherwise delete and commit inside `try` (an exception rolls back, 400). -/
def delete_task (st : Store) (taskId : Nat) (commitErr : Option String) :
    Response × Store :=
  match st.getTask taskId with
  | none => (⟨404, .errorJson "Task not found"⟩, st)
  | some _ =>
    match commitErr with
    | some e => (⟨400, .errorJson e⟩, st)
    | none =>
      (⟨200, .deletedJson⟩,
       { st with tasks := st.tasks.filter (fun t => t.id != taskId) })

/-- `POST /task/new` (`new_task` in `app.py`): inside `try`, read
`request.form['title']` (a missing field raises `BadRequestKeyError`, caught
by `except Exception`), build the `Task` with form defaults, commit, redirect
to the index; any exception rolls back and re-renders the form with the error
and HTTP 400. -/
def new_task_post (st : Store) (f : FormData) (now : Nat)
    (commitErr : Option String) : Response × Store :=
  match f.title with
  | none =>
    (⟨400, .newTaskForm (some "400 Bad Request: The browser (or proxy) sent a request that this server could not understand.")⟩, st)
  | some title =>
    match mkTask st.nextId (some title) (some (f.description.getD ""))
        (some (f.priority.getD "medium")) none now with
    | .error e => (⟨400, .newTaskForm (some e)⟩, st)
    | .ok t =>
      match commitErr with
      | some e => (⟨400, .newTaskForm (some e)⟩, st)
      | none => (⟨302, .redirectIndex⟩, st.insertTask t)

/-- `GET /task/{id}/status/{status}` (`update_task_status` in `app.py`):
redirect to `/` when the status is not one of the three known values or the
id is unknown; otherwise set the status, refresh `updated_at`, commit and
redirect. This handler has no `try`/`except`: a commit exception propagates
to the app-level 500 handler, which rolls back and answers 500. -/
def update_task_status (st : Store) (taskId : Nat) (status : String)
    (now : Nat) (commitErr : Option String) : Response × Store :=
  if status ∉ ["todo", "in_progress", "done"] then
    (⟨302, .redirectIndex⟩, st)
  else
    match st.getTask taskId with
    | none => (⟨302, .redirectIndex⟩, st)
    | some t =>
      match commitErr with
      | some _ => (⟨500, .errorJson "Internal server error"⟩, st)
      | none =>
        (⟨302, .redirectIndex⟩,
         st.replaceTask taskId { t with status := some status, updated_at := now })

/-- The three admissible status strings, as stored values. -/
def validStatuses : List (Option String) :=
  [some "todo", some "in_progress", some "done"]

/-- Every task in the table has a status among the three known values. -/
def StoreStatusOk (st : Store) : Prop :=
  ∀ t ∈ st.tasks, t.status ∈ validStatuses

instance (st : Store) : Decidable (StoreStatusOk st) := by
  unfold StoreStatusOk; infer_instance

/-! ### Concrete fixtures used by witnesses and counterexamples -/

/-- A task as created by `POST /api/tasks {"title": "Buy milk"}` at time 1. -/
def exTask1 : Task :=
  { id := 1, title := some "Buy milk", description := some "",
    status := some "todo", priority := some "medium", due_date := none,
    created_at := 1, updated_at := 1 }

/-- A one-row table holding `exTask1`. -/
def seedStore : Store := { tasks := [exTask1], nextId := 2 }

/-- A parser stand-in under which every `fromisoformat` call raises. -/
def failParse : String → Option Nat := fun _ => none

/-- A PUT payload supplying only an off-enumeration status. -/
def bogusPut : UpdatePayload :=
  { title := none, description := none, status := some (some "bogus"),
    priority := none, due_date := none }

/-- The store reached from `seedStore` by `PUT /api/tasks/1
{"status": "bogus"}` at time 5. -/
def reachedStore : Store :=
  (update_task seedStore 1 bogusPut 5 failParse none).2

/-- A create payload with a missing `title` key. -/
def noTitleCreate : CreatePayload :=
  { title := none, description := none, status := none, priority := none,
    due_date := none }

/-- A create payload `{"title": "Walk dog", "status": "done"}`: the supplied
status must be ignored. -/
def walkDogCreate : CreatePayload :=
  { title := some (some "Walk dog"), description := none,
    status := some (some "done"), priority := none, due_date := none }

/-- A form submission with an empty title. -/
def emptyTitleForm : FormData :=
  { title := some "", description := none, priority := none }

/-- A PUT payload `{"status": "done"}`. -/
def donePut : UpdatePayload :=
  { title := none, description := none, status := some (some "done"),
    priority := none, due_date := none }

/-! ### Helper lemmas -/

/-- A merge sort by descending `created_at` yields a list sorted
newest-created first. -/
theorem sorted_by_created (l : List Task) :
    List.Sorted (fun a b : Task => b.created_at ≤ a.created_at)
      (l.mergeSort (fun a b => b.created_at ≤ a.created_at)) := by
  have h := @List.sorted_mergeSort Task
      (fun a b : Task => decide (b.created_at ≤ a.created_at))
      (fun a b c hab hbc => by
        simp only [decide_eq_true_eq] at *; omega)
      (fun a b => by
        simp only [Bool.or_eq_true, decide_eq_true_eq]
        exact Nat.le_total b.created_at a.created_at) l
  exact h.imp (fun hab => by simpa using hab)

/-- The `Task` model never constructs a row whose status differs from
`todo`. -/
theorem mkTask_status {nid : Nat} {ti de pr : Option String} {dd : Option Nat}
    {now : Nat} {t : Task} (h : mkTask nid ti de pr dd now = .ok t) :
    t.status = some "todo" := by
  unfold mkTask at h
  rcases ti with _ | s
  · cases h
  · by_cases hs : s = ""
    · simp [hs] at h
    · simp [hs] at h
      simp [← h]

/-- Inserting a row whose status is admissible preserves the status
invariant. -/
theorem storeStatusOk_insert {st : Store} {t : Task} (h : StoreStatusOk st)
    (ht : t.status ∈ validStatuses) : StoreStatusOk (st.insertTask t) := by
  intro u hu
  rcases List.mem_append.mp hu with hu | hu
  · exact h u hu
  · simp only [List.mem_singleton] at hu
    subst hu; exact ht

/-- A row of a replaced table is the replacement or an original row. -/
theorem mem_replaceTask {st : Store} {tid : Nat} {t' u : Task}
    (hu : u ∈ (st.replaceTask tid t').tasks) : u = t' ∨ u ∈ st.tasks := by
  simp only [Store.replaceTask, List.mem_map] at hu
  obtain ⟨v, hv, huv⟩ := hu
  by_cases hvid : (v.id == tid) = true
  · left; simp [hvid] at huv; exact huv.symm
  · right; simp [hvid] at huv; subst huv; exact hv

/-- Looking up the replaced key after a replacement finds the replacement,
provided the key was present and the replacement keeps the key. -/
theorem getTask_replaceTask {l : List Task} {tid : Nat} {t t' : Task}
    (h : l.find? (fun u => u.id == tid) = some t) (hid : t'.id = tid) :
    (l.map (fun u => if u.id == tid then t' else u)).find?
      (fun u => u.id == tid) = some t' := by
  induction l with
  | nil => simp at h
  | cons x xs ih =>
    simp only [List.map_cons]
    by_cases hx : (x.id == tid) = true
    · rw [if_pos hx]
      have ht' : (t'.id == tid) = true := by simp [hid]
      simp [List.find?, ht']
    · rw [if_neg hx]
      have hx' : (x.id == tid) = false := by simpa using hx
      simp only [List.find?, hx'] at h ⊢
      exact ih h

/-- Field-presence semantics of `applyStringFields`: `title`. -/
theorem applyStringFields_title (t : Task) (p : UpdatePayload) :
    (applyStringFields t p).title = p.title.getD t.title := by
  rcases p with ⟨pt, pd, ps, pp, pdd⟩
  rcases pt with _ | vt <;> rcases pd with _ | vd <;> rcases ps with _ | vs <;>
    rcases pp with _ | vp <;> rfl

/-- Field-presence semantics of `applyStringFields`: `description`. -/
theorem applyStringFields_description (t : Task) (p : UpdatePayload) :
    (applyStringFields t p).description = p.description.getD t.description := by
  rcases p with ⟨pt, pd, ps, pp, pdd⟩
  rcases pt with _ | vt <;> rcases pd with _ | vd <;> rcases ps with _ | vs <;>
    rcases pp with _ | vp <;> rfl

/-- Field-presence semantics of `applyStringFields`: `status`. -/
theorem applyStringFields_status (t : Task) (p : UpdatePayload) :
    (applyStringFields t p).status = p.status.getD t.status := by
  rcases p with ⟨pt, pd, ps, pp, pdd⟩
  rcases pt with _ | vt <;> rcases pd with _ | vd <;> rcases ps with _ | vs <;>
    rcases pp with _ | vp <;> rfl

/-- Field-presence semantics of `applyStringFields`: `priority`. -/
theorem applyStringFields_priority (t : Task) (p : UpdatePayload) :
    (applyStringFields t p).priority = p.priority.getD t.priority := by
  rcases p with ⟨pt, pd, ps, pp, pdd⟩
  rcases pt with _ | vt <;> rcases pd with _ | vd <;> rcases ps with _ | vs <;>
    rcases pp with _ | vp <;> rfl

/-- `applyStringFields` never touches `id`, `created_at`, `updated_at` or
`due_date`. -/
theorem applyStringFields_frame (t : Task) (p : UpdatePayload) :
    (applyStringFields t p).id = t.id ∧
    (applyStringFields t p).created_at = t.created_at ∧
    (applyStringFields t p).updated_at = t.updated_at ∧
    (applyStringFields t p).due_date = t.due_date := by
  rcases p with ⟨pt, pd, ps, pp, pdd⟩
  rcases pt with _ | vt <;> rcases pd with _ | vd <;> rcases ps with _ | vs <;>
    rcases pp with _ | vp <;> exact ⟨rfl, rfl, rfl, rfl⟩

/-- A successful `applyUpdate` produces the string-field update with some
`due_date`, constrained by the payload's `due_date` key, and a refreshed
`updated_at`. -/
theorem applyUpdate_ok_eq {t : Task} {p : UpdatePayload}
    {parse : String → Option Nat} {now : Nat} {t' : Task}
    (h : applyUpdate t p parse now = .ok t') :
    ∃ due,
      t' = { applyStringFields t p with due_date := due, updated_at := now } ∧
      (p.due_date = none → due = t.due_date) ∧
      (p.due_date = some none → due = none) ∧
      (∀ s, p.due_date = some (some s) → s ≠ "" → due = parse s) := by
  unfold applyUpdate applyDue at h
  rcases hdd : p.due_date with _ | ⟨_ | s⟩ <;> simp only [hdd] at h
  · refine ⟨(applyStringFields t p).due_date, ?_, ?_, ?_, ?_⟩
    · cases h; rfl
    · intro _; exact (applyStringFields_frame t p).2.2.2
    · intro hc; cases hc
    · intro s hc; cases hc
  · refine ⟨none, ?_, ?_, ?_, ?_⟩
    · cases h; rfl
    · intro hc; cases hc
    · intro _; rfl
    · intro s hc; cases hc
  · by_cases hs : s = ""
    · rw [if_pos hs] at h
      refine ⟨none, ?_, ?_, ?_, ?_⟩
      · cases h; rfl
      · intro hc; cases hc
      · intro hc; cases hc
      · intro s' hc hne
        cases hc; exact absurd hs hne
    · rw [if_neg hs] at h
      rcases hp : parse s with _ | d <;> rw [hp] at h
      · cases h
      · refine ⟨some d, ?_, ?_, ?_, ?_⟩
        · cases h; rfl
        · intro hc; cases hc
        · intro hc; cases hc
        · intro s' hc _
          cases hc; exact hp.symm

/-- A truthy JSON string field is never the empty string. -/
theorem getTruthy_ne {f : JField String} {s : String}
    (h : f.getTruthy = some s) : s ≠ "" := by
  rcases f with _ | ⟨_ | v⟩
  · exact absurd h (by simp [JField.getTruthy])
  · exact absurd h (by simp [JField.getTruthy])
  · simp only [JField.getTruthy] at h
    by_cases hv : v = ""
    · rw [if_pos hv] at h; cases h
    · rw [if_neg hv] at h
      cases h; exact hv

/-- The `Task` model constructor succeeds on every non-empty title. -/
theorem mkTask_ok_of_ne {nid : Nat} {de pr : Option String} {dd : Option Nat}
    {now : Nat} {s : String} (hs : s ≠ "") :
    mkTask nid (some s) de pr dd now =
      .ok { id := nid, title := some s, description := de,
            status := some "todo", priority := pr, due_date := dd,
            created_at := now, updated_at := now } := by
  simp only [mkTask]
  rw [if_neg hs]

/-- `create_task` either leaves the table untouched or answers 201. -/
theorem create_task_cases (st : Store) (p : CreatePayload) (now : Nat)
    (parse : String → Option Nat) (ce : Option String) :
    (create_task st p now parse ce).2 = st ∨
    (create_task st p now parse ce).1.code = 201 := by
  unfold create_task createCommit
  repeat' split
  all_goals simp

/-- `update_task` either leaves the table untouched or answers 200. -/
theorem update_task_cases (st : Store) (taskId : Nat) (p : UpdatePayload)
    (now : Nat) (parse : String → Option Nat) (ce : Option String) :
    (update_task st taskId p now parse ce).2 = st ∨
    (update_task st taskId p now parse ce).1.code = 200 := by
  unfold update_task
  repeat' split
  all_goals simp

/-- `delete_task` either leaves the table untouched or answers 200. -/
theorem delete_task_cases (st : Store) (taskId : Nat) (ce : Option String) :
    (delete_task st taskId ce).2 = st ∨
    (delete_task st taskId ce).1.code = 200 := by
  unfold delete_task
  repeat' split
  all_goals simp

/-- The form-create handler either leaves the table untouched or
redirects. -/
theorem new_task_post_cases (st : Store) (f : FormData) (now : Nat)
    (ce : Option String) :
    (new_task_post st f now ce).2 = st ∨
    (new_task_post st f now ce).1.code = 302 := by
  unfold new_task_post
  repeat' split
  all_goals simp

/-- The status-change route either leaves the table untouched or
redirects. -/
theorem update_task_status_cases (st : Store) (taskId : Nat) (s : String)
    (now : Nat) (ce : Option String) :
    (update_task_status st taskId s now ce).2 = st ∨
    (update_task_status st taskId s now ce).1.code = 302 := by
  unfold update_task_status
  repeat' split
  all_goals simp

/-- `create_task` either leaves the table untouched or appends a row whose
status is `todo`. -/
theorem create_task_store (st : Store) (p : CreatePayload) (now : Nat)
    (parse : String → Option Nat) (ce : Option String) :
    (create_task st p now parse ce).2 = st ∨
    ∃ t, t.status = some "todo" ∧
      (create_task st p now parse ce).2 = st.insertTask t := by
  unfold create_task createCommit
  repeat' split
  all_goals try (left; rfl)
  all_goals
    (right
     exact ⟨_, mkTask_status (by assumption), rfl⟩)

/-- The form-create handler either leaves the table untouched or appends a
row whose status is `todo`. -/
theorem new_task_post_store (st : Store) (f : FormData) (now : Nat)
    (ce : Option String) :
    (new_task_post st f now ce).2 = st ∨
    ∃ t, t.status = some "todo" ∧
      (new_task_post st f now ce).2 = st.insertTask t := by
  unfold new_task_post
  repeat' split
  all_goals try (left; rfl)
  all_goals
    (right
     exact ⟨_, mkTask_status (by assumption), rfl⟩)

/-- `delete_task` either leaves the table untouched or only removes rows. -/
theorem delete_task_store (st : Store) (taskId : Nat) (ce : Option String) :
    (delete_task st taskId ce).2 = st ∨
    (delete_task st taskId ce).2.tasks =
      st.tasks.filter (fun t => t.id != taskId) := by
  unfold delete_task
  repeat' split
  all_goals simp

/-! ### Claims C1 to C6 -/

/-- C1 counterexample: starting from a table whose statuses all lie in
{todo, in_progress, done}, the request `PUT /api/tasks/1
{"status": "bogus"}` stores an off-enumeration status — the PUT route
applies an unrecognized status verbatim rather than no-oping. -/
theorem C1_counterexample :
    StoreStatusOk seedStore ∧ ¬ StoreStatusOk reachedStore :=
  ⟨by decide, by decide⟩

/-- C1 amended: creation (API and form) always stores status `todo`, the
delete route only removes rows, and the status-change route only writes one
of the three known statuses, so these routes preserve the three-value status
set; the PUT update route, however, applies any supplied `status` value
verbatim, so a task's status can leave the set. -/
theorem C1_status_invariant_amended (st : Store) (h : StoreStatusOk st) :
    (∀ p now parse ce, StoreStatusOk (create_task st p now parse ce).2) ∧
    (∀ f now ce, StoreStatusOk (new_task_post st f now ce).2) ∧
    (∀ taskId ce, StoreStatusOk (delete_task st taskId ce).2) ∧
    (∀ taskId s now ce,
      StoreStatusOk (update_task_status st taskId s now ce).2) ∧
    (∀ t p parse now t', applyUpdate t p parse now = .ok t' →
      ∀ v, p.status = some v → t'.status = v) := by
  refine ⟨?_, ?_, ?_, ?_, ?_⟩
  · intro p now parse ce
    rcases create_task_store st p now parse ce with hc | ⟨t, hts, hc⟩
    · rw [hc]; exact h
    · rw [hc]
      exact storeStatusOk_insert h (by rw [hts]; exact List.mem_cons_self _ _)
  · intro f now ce
    rcases new_task_post_store st f now ce with hc | ⟨t, hts, hc⟩
    · rw [hc]; exact h
    · rw [hc]
      exact storeStatusOk_insert h (by rw [hts]; exact List.mem_cons_self _ _)
  · intro taskId ce
    rcases delete_task_store st taskId ce with hc | hc
    · rw [hc]; exact h
    · intro u hu
      rw [hc] at hu
      exact h u (List.mem_of_mem_filter hu)
  · intro taskId s now ce
    unfold update_task_status
    by_cases hs : s ∉ ["todo", "in_progress", "done"]
    · rw [if_pos hs]; exact h
    · rw [if_neg hs]
      rcases hg : st.getTask taskId with _ | t
      · exact h
      · rcases ce with _ | e
        · intro u hu
          rcases mem_replaceTask hu with rfl | hu
          · have hs' : s ∈ ["todo", "in_progress", "done"] := not_not.mp hs
            show some s ∈ validStatuses
            simp only [validStatuses, List.mem_cons, List.not_mem_nil,
              or_false, Option.some.injEq]
            simpa using hs'
          · exact h u hu
        · exact h
  · intro t p parse now t' ha v hv
    obtain ⟨due, ht', _, _, _⟩ := applyUpdate_ok_eq ha
    rw [ht']
    show (applyStringFields t p).status = v
    rw [applyStringFields_status, hv]
    rfl

/-- Witness for C1 amended: the status-change route keeps the seed store's
statuses in the three-value set. -/
theorem C1_witness :
    StoreStatusOk (update_task_status seedStore 1 "done" 7 none).2 := by
  have h := C1_status_invariant_amended seedStore (by decide)
  exact h.2.2.2.1 1 "done" 7 none

/-- C2 counterexample: a commit failure during `DELETE /api/tasks/1` — an
unexpected store failure — is answered with HTTP 400, not 500. -/
theorem C2_counterexample :
    (delete_task seedStore 1 (some "database is locked")).1 =
      ⟨400, .errorJson "database is locked"⟩ ∧ (400 : Nat) ≠ 500 :=
  ⟨by decide, by decide⟩

/-- C2 amended: on the JSON API a validation error yields HTTP 400 and an
unknown id yields HTTP 404, each with an `{error: message}` body; an
unexpected store failure during create/update/delete is caught inside the
handler's `try` block and also yields HTTP 400 with `{error: message}` — not
500. -/
theorem C2_api_error_codes_amended (st : Store) (p : CreatePayload)
    (up : UpdatePayload) (taskId : Nat) (now : Nat)
    (parse : String → Option Nat) (e : String) :
    (p.title.getTruthy = none →
      create_task st p now parse none =
        (⟨400, .errorJson "Title is required"⟩, st)) ∧
    (∀ ti, p.title.getTruthy = some ti →
      (p.due_date.getTruthy = none ∨
        (∃ s d, p.due_date.getTruthy = some s ∧ parse s = some d)) →
      create_task st p now parse (some e) = (⟨400, .errorJson e⟩, st)) ∧
    (st.getTask taskId = none →
      get_task st taskId = ⟨404, .errorJson "Task not found"⟩ ∧
      update_task st taskId up now parse none =
        (⟨404, .errorJson "Task not found"⟩, st) ∧
      delete_task st taskId none =
        (⟨404, .errorJson "Task not found"⟩, st)) ∧
    (st.getTask taskId ≠ none →
      delete_task st taskId (some e) = (⟨400, .errorJson e⟩, st)) ∧
    (∀ t t', st.getTask taskId = some t →
      applyUpdate t up parse now = .ok t' →
      update_task st taskId up now parse (some e) =
        (⟨400, .errorJson e⟩, st)) := by
  refine ⟨?_, ?_, ?_, ?_, ?_⟩
  · intro ht
    unfold create_task
    rw [ht]
  · intro ti ht hdue
    have hne := getTruthy_ne ht
    unfold create_task createCommit
    rcases hdue with hd | ⟨s, d, hd, hp⟩
    · simp only [ht, hd, mkTask_ok_of_ne hne]
    · simp only [ht, hd, hp, mkTask_ok_of_ne hne]
  · intro hg
    refine ⟨?_, ?_, ?_⟩
    · unfold get_task; rw [hg]
    · unfold update_task; rw [hg]
    · unfold delete_task; rw [hg]
  · intro hne
    rcases hg : st.getTask taskId with _ | t
    · exact absurd hg hne
    · unfold delete_task; rw [hg]
  · intro t t' hg ha
    unfold update_task
    simp only [hg, ha]

/-- Witness for C2 amended: a commit failure during a valid create yields
the structured 400. -/
theorem C2_witness :
    create_task seedStore walkDogCreate 9 failParse (some "db down") =
      (⟨400, .errorJson "db down"⟩, seedStore) := by
  have h := C2_api_error_codes_amended seedStore walkDogCreate donePut 99999
    9 failParse "db down"
  exact h.2.1 "Walk dog" (by decide) (Or.inl (by decide))

/-- C3: a create with an empty or missing title fails with the validation
error and HTTP 400 — the API answers `{error: "Title is required"}`, the
form redisplays with an inline error — and no task is stored. -/
theorem C3_empty_title_rejected (st : Store) (p : CreatePayload)
    (f : FormData) (now : Nat) (parse : String → Option Nat)
    (ce : Option String)
    (hp : p.title = none ∨ p.title = some none ∨ p.title = some (some ""))
    (hf : f.title = none ∨ f.title = some "") :
    create_task st p now parse ce =
      (⟨400, .errorJson "Title is required"⟩, st) ∧
    (new_task_post st f now ce).1.code = 400 ∧
    (new_task_post st f now ce).2 = st := by
  refine ⟨?_, ?_, ?_⟩
  · have ht : p.title.getTruthy = none := by
      rcases hp with h | h | h <;> rw [h] <;> rfl
    unfold create_task
    rw [ht]
  · rcases hf with h | h
    · unfold new_task_post; rw [h]
    · unfold new_task_post; rw [h]; rfl
  · rcases hf with h | h
    · unfold new_task_post; rw [h]
    · unfold new_task_post; rw [h]; rfl

/-- Witness for C3: a missing API title and an empty form title on the seed
store. -/
theorem C3_witness :
    create_task seedStore noTitleCreate 9 failParse none =
      (⟨400, .errorJson "Title is required"⟩, seedStore) ∧
    (new_task_post seedStore emptyTitleForm 9 none).1.code = 400 ∧
    (new_task_post seedStore emptyTitleForm 9 none).2 = seedStore :=
  C3_empty_title_rejected seedStore noTitleCreate emptyTitleForm 9 failParse
    none (Or.inl rfl) (Or.inr rfl)

/-- C4: every successful create stores status `todo` — the handlers never
read a `status` key from the payload, so this holds regardless of any
supplied status — and priority equal to the given value, or `medium` when
the priority field is omitted. -/
theorem C4_create_status_and_priority (st : Store) (p : CreatePayload)
    (f : FormData) (now : Nat) (parse : String → Option Nat)
    (ce : Option String) :
    (∀ t, (create_task st p now parse ce).1.body = .taskJson t →
      t.status = some "todo" ∧
      (p.priority = none → t.priority = some "medium") ∧
      (∀ v, p.priority = some v → t.priority = v)) ∧
    ((new_task_post st f now ce).1.code = 302 →
      ∃ t, (new_task_post st f now ce).2 = st.insertTask t ∧
        t.status = some "todo" ∧
        (f.priority = none → t.priority = some "medium") ∧
        (∀ v, f.priority = some v → t.priority = some v)) := by
  constructor
  · intro t hbody
    unfold create_task at hbody
    rcases ht : p.title.getTruthy with _ | title
    · rw [ht] at hbody
      exact absurd hbody (by simp)
    · have hne := getTruthy_ne ht
      rcases ce with _ | e
      · rcases hd : p.due_date.getTruthy with _ | s
        · simp only [ht, hd, createCommit, mkTask_ok_of_ne hne,
            Body.taskJson.injEq] at hbody
          subst hbody
          refine ⟨rfl, ?_, ?_⟩
          · intro hn
            show p.priority.getOr "medium" = some "medium"
            rw [hn]; rfl
          · intro v hv
            show p.priority.getOr "medium" = v
            rw [hv]; rfl
        · rcases hp : parse s with _ | d
          · simp [ht, hd, hp] at hbody
          · simp only [ht, hd, hp, createCommit, mkTask_ok_of_ne hne,
              Body.taskJson.injEq] at hbody
            subst hbody
            refine ⟨rfl, ?_, ?_⟩
            · intro hn
              show p.priority.getOr "medium" = some "medium"
              rw [hn]; rfl
            · intro v hv
              show p.priority.getOr "medium" = v
              rw [hv]; rfl
      · rcases hd : p.due_date.getTruthy with _ | s
        · simp [ht, hd, createCommit, mkTask_ok_of_ne hne] at hbody
        · rcases hp : parse s with _ | d
          · simp [ht, hd, hp] at hbody
          · simp [ht, hd, hp, createCommit, mkTask_ok_of_ne hne] at hbody
  · intro hcode
    unfold new_task_post at hcode ⊢
    rcases ht : f.title with _ | title
    · rw [ht] at hcode
      exact absurd hcode (by simp)
    · by_cases hti : title = ""
      · subst hti
        rw [ht] at hcode
        exact absurd hcode (by simp [mkTask])
      · rcases ce with _ | e
        · simp only [ht, mkTask_ok_of_ne hti] at hcode ⊢
          refine ⟨_, rfl, rfl, ?_, ?_⟩
          · intro hn
            show some (f.priority.getD "medium") = some "medium"
            rw [hn]; rfl
          · intro v hv
            show some (f.priority.getD "medium") = some v
            rw [hv]; rfl
        · simp [ht, mkTask_ok_of_ne hti] at hcode

/-- The row stored by `POST /api/tasks {"title": "Walk dog",
"status": "done"}` on the seed store at time 9. -/
def wdTask : Task :=
  { id := 2, title := some "Walk dog", description := some "",
    status := some "todo", priority := some "medium", due_date := none,
    created_at := 9, updated_at := 9 }

/-- Witness for C4: the task created from `walkDogCreate` — whose payload
supplies `status: done` — is stored with status `todo` and priority
`medium`. -/
theorem C4_witness :
    wdTask.status = some "todo" ∧ wdTask.priority = some "medium" := by
  have h := C4_create_status_and_priority seedStore walkDogCreate
    emptyTitleForm 9 failParse none
  exact ⟨(h.1 wdTask (by decide)).1, (h.1 wdTask (by decide)).2.1 rfl⟩

/-! ### Claims C5 and C6 -/

/-- C5: for every mutating operation (API create, PUT update, DELETE, form
create, status-change route), if the operation fails with any error — any
outcome other than its success response — the pending change is rolled back
and the stored table is exactly as before the request. -/
theorem C5_rollback_on_failure (st : Store) (p : CreatePayload)
    (up : UpdatePayload) (f : FormData) (taskId : Nat) (s : String)
    (now : Nat) (parse : String → Option Nat) (ce : Option String) :
    ((create_task st p now parse ce).1.code ≠ 201 →
      (create_task st p now parse ce).2 = st) ∧
    ((update_task st taskId up now parse ce).1.code ≠ 200 →
      (update_task st taskId up now parse ce).2 = st) ∧
    ((delete_task st taskId ce).1.code ≠ 200 →
      (delete_task st taskId ce).2 = st) ∧
    ((new_task_post st f now ce).1.code ≠ 302 →
      (new_task_post st f now ce).2 = st) ∧
    ((update_task_status st taskId s now ce).1.code ≠ 302 →
      (update_task_status st taskId s now ce).2 = st) :=
  ⟨fun h => (create_task_cases st p now parse ce).resolve_right h,
   fun h => (update_task_cases st taskId up now parse ce).resolve_right h,
   fun h => (delete_task_cases st taskId ce).resolve_right h,
   fun h => (new_task_post_cases st f now ce).resolve_right h,
   fun h => (update_task_status_cases st taskId s now ce).resolve_right h⟩

/-- Witness for C5: a create whose commit raises leaves the seed table
unchanged. -/
theorem C5_witness :
    (create_task seedStore walkDogCreate 9 failParse (some "db down")).2 =
      seedStore := by
  have h := C5_rollback_on_failure seedStore walkDogCreate donePut
    emptyTitleForm 1 "done" 9 failParse (some "db down")
  exact h.1 (by decide)

/-- C6: for every successful `PUT /api/tasks/{id}` on an existing task,
exactly the fields present in the payload are applied (a field set to `null`
is applied as `null`, an absent field leaves the stored value), `id` and
`created_at` are never modified, `updated_at` is refreshed, and the stored
row is the returned one. -/
theorem C6_partial_update_semantics (st : Store) (taskId : Nat)
    (p : UpdatePayload) (now : Nat) (parse : String → Option Nat)
    (t t' : Task) (hget : st.getTask taskId = some t)
    (hbody : (update_task st taskId p now parse none).1.body = .taskJson t') :
    t'.id = t.id ∧ t'.created_at = t.created_at ∧ t'.updated_at = now ∧
    (p.title = none → t'.title = t.title) ∧
    (∀ v, p.title = some v → t'.title = v) ∧
    (p.description = none → t'.description = t.description) ∧
    (∀ v, p.description = some v → t'.description = v) ∧
    (p.status = none → t'.status = t.status) ∧
    (∀ v, p.status = some v → t'.status = v) ∧
    (p.priority = none → t'.priority = t.priority) ∧
    (∀ v, p.priority = some v → t'.priority = v) ∧
    (p.due_date = none → t'.due_date = t.due_date) ∧
    (p.due_date = some none → t'.due_date = none) ∧
    (∀ s, p.due_date = some (some s) → s ≠ "" → t'.due_date = parse s) ∧
    (update_task st taskId p now parse none).2.getTask taskId = some t' := by
  unfold update_task at hbody ⊢
  rw [hget] at hbody ⊢
  rcases ha : applyUpdate t p parse now with e | t'' <;>
    simp only [ha] at hbody ⊢
  · exact absurd hbody (by simp)
  · simp only [Body.taskJson.injEq] at hbody
    subst hbody
    obtain ⟨due, ht', h1, h2, h3⟩ := applyUpdate_ok_eq ha
    have hframe := applyStringFields_frame t p
    have htid : t.id = taskId := by
      have := List.find?_some hget
      simpa using this
    refine ⟨?_, ?_, ?_, ?_, ?_, ?_, ?_, ?_, ?_, ?_, ?_, ?_, ?_, ?_, ?_⟩
    · rw [ht']; exact hframe.1
    · rw [ht']; exact hframe.2.1
    · rw [ht']
    · intro hn
      rw [ht']
      show (applyStringFields t p).title = t.title
      rw [applyStringFields_title, hn]; rfl
    · intro v hv
      rw [ht']
      show (applyStringFields t p).title = v
      rw [applyStringFields_title, hv]; rfl
    · intro hn
      rw [ht']
      show (applyStringFields t p).description = t.description
      rw [applyStringFields_description, hn]; rfl
    · intro v hv
      rw [ht']
      show (applyStringFields t p).description = v
      rw [applyStringFields_description, hv]; rfl
    · intro hn
      rw [ht']
      show (applyStringFields t p).status = t.status
      rw [applyStringFields_status, hn]; rfl
    · intro v hv
      rw [ht']
      show (applyStringFields t p).status = v
      rw [applyStringFields_status, hv]; rfl
    · intro hn
      rw [ht']
      show (applyStringFields t p).priority = t.priority
      rw [applyStringFields_priority, hn]; rfl
    · intro v hv
      rw [ht']
      show (applyStringFields t p).priority = v
      rw [applyStringFields_priority, hv]; rfl
    · intro hn
      rw [ht']
      show due = t.due_date
      exact h1 hn
    · intro hn
      rw [ht']
      show due = none
      exact h2 hn
    · intro s hs hne
      rw [ht']
      show due = parse s
      exact h3 s hs hne
    · show (st.replaceTask taskId t'').getTask taskId = some t''
      have hid : t''.id = taskId := by
        rw [ht']
        show (applyStringFields t p).id = taskId
        rw [hframe.1, htid]
      exact getTask_replaceTask hget hid

/-- Witness for C6 at `PUT /api/tasks/1 {"status": "done"}` on the seed
store. -/
theorem C6_witness :
    (update_task seedStore 1 donePut 7 failParse none).2.getTask 1 =
      some { exTask1 with status := some "done", updated_at := 7 } := by
  have h := C6_partial_update_semantics seedStore 1 donePut 7 failParse
    exTask1 { exTask1 with status := some "done", updated_at := 7 }
    (by decide) (by decide)
  exact h.2.2.2.2.2.2.2.2.2.2.2.2.2.2

/-! ### Claims C7, C9, C10 -/

/-- C7: for every request `GET /task/{id}/status/{status}` where the status
is not one of {todo, in_progress, done} or where no task with that id
exists, the response is a redirect to `/` and the stored table is left
completely unchanged. -/
theorem C7_bad_status_or_id_noop (st : Store) (taskId : Nat) (s : String)
    (now : Nat) (commitErr : Option String)
    (h : s ∉ ["todo", "in_progress", "done"] ∨ st.getTask taskId = none) :
    (update_task_status st taskId s now commitErr).1 = ⟨302, .redirectIndex⟩ ∧
    (update_task_status st taskId s now commitErr).2 = st := by
  unfold update_task_status
  rcases h with h | h
  · rw [if_pos h]; exact ⟨rfl, rfl⟩
  · by_cases hs : s ∉ ["todo", "in_progress", "done"]
    · rw [if_pos hs]; exact ⟨rfl, rfl⟩
    · rw [if_neg hs, h]; exact ⟨rfl, rfl⟩

/-- Witness for C7 at `GET /task/1/status/bogus` on the seed store. -/
theorem C7_witness :
    (update_task_status seedStore 1 "bogus" 5 none).1 =
      ⟨302, .redirectIndex⟩ ∧
    (update_task_status seedStore 1 "bogus" 5 none).2 = seedStore :=
  C7_bad_status_or_id_noop seedStore 1 "bogus" 5 none (Or.inl (by decide))

/-- C9: every `GET /api/tasks` response, with or without filters, is ordered
newest-created first (descending `created_at`), and an unfiltered call
returns the full table (as a permutation — no pagination). -/
theorem C9_ordering_and_full_table (st : Store)
    (status priority : Option String) :
    List.Sorted (fun a b : Task => b.created_at ≤ a.created_at)
      (get_tasks st status priority) ∧
    (get_tasks st none none).Perm st.tasks := by
  constructor
  · unfold get_tasks
    exact sorted_by_created _
  · unfold get_tasks
    exact List.mergeSort_perm st.tasks _

/-- A status filter with a non-empty value and no priority filter reduces to
a plain list filter followed by the sort. -/
theorem get_tasks_status_filter (st : Store) (s : String) (hs : s ≠ "") :
    get_tasks st (some s) none =
      (st.tasks.filter (fun t => t.status == some s)).mergeSort
        (fun a b => b.created_at ≤ a.created_at) := by
  simp only [get_tasks]
  rw [if_neg hs]

/-- The three status filters partition a table whose statuses all lie in the
three-value set. -/
theorem filter_status_partition (l : List Task)
    (h : ∀ t ∈ l, t.status ∈ validStatuses) :
    (l.filter (fun t => t.status == some "todo") ++
      (l.filter (fun t => t.status == some "in_progress") ++
        l.filter (fun t => t.status == some "done"))).Perm l := by
  induction l with
  | nil => simp
  | cons x xs ih =>
    have hx := h x (List.mem_cons_self x xs)
    have hxs : ∀ t ∈ xs, t.status ∈ validStatuses :=
      fun t ht => h t (List.mem_cons_of_mem x ht)
    have hperm := ih hxs
    simp only [validStatuses, List.mem_cons, List.not_mem_nil, or_false]
      at hx
    rcases hx with hx | hx | hx
    · have h1 : (x.status == some "todo") = true := by rw [hx]; decide
      have h2 : (x.status == some "in_progress") = false := by
        rw [hx]; decide
      have h3 : (x.status == some "done") = false := by rw [hx]; decide
      simp only [List.filter_cons, h1, h2, h3, if_true, if_false]
      exact hperm.cons x
    · have h1 : (x.status == some "todo") = false := by rw [hx]; decide
      have h2 : (x.status == some "in_progress") = true := by
        rw [hx]; decide
      have h3 : (x.status == some "done") = false := by rw [hx]; decide
      simp only [List.filter_cons, h1, h2, h3, if_true, if_false]
      refine List.Perm.trans ?_ (hperm.cons x)
      simp only [List.cons_append]
      exact List.perm_middle
    · have h1 : (x.status == some "todo") = false := by rw [hx]; decide
      have h2 : (x.status == some "in_progress") = false := by
        rw [hx]; decide
      have h3 : (x.status == some "done") = true := by rw [hx]; decide
      simp only [List.filter_cons, h1, h2, h3, if_true, if_false]
      refine List.Perm.trans ?_ (hperm.cons x)
      refine List.Perm.trans (List.Perm.append_left _ List.perm_middle) ?_
      exact List.perm_middle

/-- C8 counterexample: in the store reached from the seed store by
`PUT /api/tasks/1 {"status": "bogus"}`, the union of `list(status=s)` over
the three statuses is empty while the unfiltered `list()` still holds the
task, so the union does not equal `list()`. -/
theorem C8_counterexample :
    ¬ (get_tasks reachedStore (some "todo") none ++
        (get_tasks reachedStore (some "in_progress") none ++
          get_tasks reachedStore (some "done") none)).Perm
      (get_tasks reachedStore none none) := by
  have h1 : reachedStore.tasks =
      [{ exTask1 with status := some "bogus", updated_at := 5 }] := by decide
  have ht : get_tasks reachedStore (some "todo") none = [] := by
    rw [get_tasks_status_filter reachedStore "todo" (by decide), h1]
    rw [show ([{ exTask1 with status := some "bogus", updated_at := 5 }] :
        List Task).filter (fun t => t.status == some "todo") = [] from
      by decide]
    exact List.mergeSort_nil
  have hi : get_tasks reachedStore (some "in_progress") none = [] := by
    rw [get_tasks_status_filter reachedStore "in_progress" (by decide), h1]
    rw [show ([{ exTask1 with status := some "bogus", updated_at := 5 }] :
        List Task).filter (fun t => t.status == some "in_progress") = []
      from by decide]
    exact List.mergeSort_nil
  have hd : get_tasks reachedStore (some "done") none = [] := by
    rw [get_tasks_status_filter reachedStore "done" (by decide), h1]
    rw [show ([{ exTask1 with status := some "bogus", updated_at := 5 }] :
        List Task).filter (fun t => t.status == some "done") = [] from
      by decide]
    exact List.mergeSort_nil
  have hall : get_tasks reachedStore none none =
      [{ exTask1 with status := some "bogus", updated_at := 5 }] := by
    show reachedStore.tasks.mergeSort
        (fun a b => b.created_at ≤ a.created_at) = _
    rw [h1]
    exact List.mergeSort_singleton _
  intro hp
  rw [ht, hi, hd, hall] at hp
  simp at hp

/-- C8 amended: `list(status="done")` returns only tasks whose stored status
is `done`; and on every store whose task statuses all lie in
{todo, in_progress, done}, the union of `list(status=s)` over the three
statuses is a permutation of the unfiltered `list()`. (The union equality
fails on stores holding an off-enumeration status, which PUT can produce.)
-/
theorem C8_filter_union_amended (st : Store) :
    (∀ t ∈ get_tasks st (some "done") none, t.status = some "done") ∧
    (StoreStatusOk st →
      (get_tasks st (some "todo") none ++
        (get_tasks st (some "in_progress") none ++
          get_tasks st (some "done") none)).Perm
        (get_tasks st none none)) := by
  constructor
  · intro t ht
    rw [get_tasks_status_filter st "done" (by decide)] at ht
    rw [List.mem_mergeSort] at ht
    have hmem := List.of_mem_filter ht
    simpa using hmem
  · intro h
    rw [get_tasks_status_filter st "todo" (by decide),
      get_tasks_status_filter st "in_progress" (by decide),
      get_tasks_status_filter st "done" (by decide),
      show get_tasks st none none =
        st.tasks.mergeSort (fun a b => b.created_at ≤ a.created_at) from rfl]
    refine List.Perm.trans ?_ (List.mergeSort_perm st.tasks _).symm
    refine List.Perm.trans ?_ (filter_status_partition st.tasks h)
    exact List.Perm.append (List.mergeSort_perm _ _)
      (List.Perm.append (List.mergeSort_perm _ _) (List.mergeSort_perm _ _))

/-- Witness for C8 amended at the seed store. -/
theorem C8_witness :
    (get_tasks seedStore (some "todo") none ++
      (get_tasks seedStore (some "in_progress") none ++
        get_tasks seedStore (some "done") none)).Perm
      (get_tasks seedStore none none) :=
  (C8_filter_union_amended seedStore).2 (by decide)

/-- C10: a `status` or `priority` query parameter that is present but equal
to the empty string is treated as absent — no filter is applied for it. -/
theorem C10_empty_param_ignored (st : Store) (other : Option String) :
    get_tasks st (some "") other = get_tasks st none other ∧
    get_tasks st other (some "") = get_tasks st other none := by
  exact ⟨rfl, rfl⟩

end TaskApp
